import Mathlib

/-!
Shallow embedding of the content-acquisition and extraction pipeline of the
article-summarizer repository (src/fetcher.ts, src/extractor.ts and the
thumbnail-extraction code used by src/summarizer.ts), together with theorems
settling the specification claims about it.

JavaScript strings are modelled as `List Char`.  External libraries
(node-fetch, puppeteer, jsdom, @extractus/article-extractor, pdf2json, URL
resolution) are modelled as explicit parameters or as query-result records,
so every repository-owned branch and computation is translated directly.
-/

namespace ArticleSummarizer

/-- Model of a JavaScript string: a list of Unicode characters. -/
abbrev Str := List Char

/-- Coerce a Lean string literal into the model type. -/
def strL (s : String) : Str := s.toList

/-- JavaScript whitespace (the class `\s`, also used by `String.prototype.trim`). -/
def isJsWs (c : Char) : Bool :=
  c = ' ' || c = '\t' || c = '\n' || c = '\r' ||
  c = '\x0b' || c = '\x0c' || c = '\u00a0' || c = '\u1680' ||
  ('\u2000' ≤ c && c ≤ '\u200a') ||
  c = '\u2028' || c = '\u2029' || c = '\u202f' || c = '\u205f' ||
  c = '\u3000' || c = '\ufeff'

/-- Left part of JavaScript `String.prototype.trim`. -/
def trimLeft (s : Str) : Str := s.dropWhile isJsWs

/-- Right part of JavaScript `String.prototype.trim`. -/
def trimRight (s : Str) : Str := (s.reverse.dropWhile isJsWs).reverse

/-- JavaScript `String.prototype.trim`. -/
def trim (s : Str) : Str := trimLeft (trimRight s)

/-- JavaScript `str.split('\n')`: `"" ↦ [""]`, `"a\n" ↦ ["a", ""]`, etc.
A non-newline character is prepended to the first piece (the recursive result
is never empty, so `headD`/`tail` just split off its head). -/
def splitLines : Str → List Str
  | [] => [[]]
  | c :: rest =>
    if c = '\n' then [] :: splitLines rest
    else (c :: (splitLines rest).headD []) :: (splitLines rest).tail

/-- JavaScript `lines.join('\n\n')`. -/
def joinBlank : List Str → Str
  | [] => []
  | [l] => l
  | l :: l' :: ls => l ++ '\n' :: '\n' :: joinBlank (l' :: ls)

/-- JavaScript `haystack.includes(needle)`. -/
def containsSub (needle : Str) : Str → Bool
  | [] => needle.isEmpty
  | c :: t => List.isPrefixOf needle (c :: t) || containsSub needle t

/-- JavaScript `s.startsWith(pre)`. -/
def startsWith (pre s : Str) : Bool := List.isPrefixOf pre s

/-- JavaScript `s.endsWith(suf)`. -/
def endsWith (suf s : Str) : Bool := List.isSuffixOf suf s

/-- JavaScript `String.prototype.toLowerCase`, restricted to ASCII case
mapping (all case-sensitive comparisons in the source involve ASCII). -/
def toLower (s : Str) : Str := s.map Char.toLower

/-- JavaScript regex class `\d`. -/
def isDigitChar (c : Char) : Bool := '0' ≤ c && c ≤ '9'

/-- JavaScript truthiness of a possibly-absent string (`null`, `undefined`
and `""` are falsy). -/
def jsTruthy : Option Str → Option Str
  | some s => if s.isEmpty then none else some s
  | none => none

/-- JavaScript `a || b` where `a` is a possibly-absent string and `b` a string. -/
def jsOrStr (a : Option Str) (b : Str) : Str :=
  match jsTruthy a with
  | some s => s
  | none => b

/-! ## ContentCleaner (src/extractor.ts, `cleanExtractedContent` and helpers) -/

/-- Regex alternation `^(a|b|...)` with the `i` flag: the line starts with one
of the (lower-cased) alternatives, compared case-insensitively. -/
def startsWithAnyCI (alts : List Str) (line : Str) : Bool :=
  alts.any fun a => startsWith a (toLower line)

/-- Regex fragment `\s+(a|b|...)`: at least one whitespace character followed
by one of the alternatives (which begin with non-whitespace, so consuming the
maximal whitespace run is equivalent to the backtracking semantics). -/
def wsPlusThen (alts : List Str) (s : Str) : Bool :=
  match s with
  | [] => false
  | c :: _ => isJsWs c && alts.any fun a => startsWith a (s.dropWhile isJsWs)

/-- Regex `/^(more\s+(news|articles)|...)/i`-style head: case-insensitive
`first` then `\s+` then one of `alts`. -/
def startsWithWordWs (first : Str) (alts : List Str) (line : Str) : Bool :=
  let low := toLower line
  startsWith first low && wsPlusThen alts (low.drop first.length)

/-- Regex fragment `\d{1,2}X` (for a character class `X`) followed by `k`:
one or two digits then a separator, with backtracking. -/
def digits12Sep (sep : Char → Bool) (k : Str → Bool) : Str → Bool
  | d1 :: rest =>
    isDigitChar d1 &&
      ((match rest with
        | s :: rest2 => sep s && k rest2
        | [] => false) ||
       (match rest with
        | d2 :: s :: rest2 => isDigitChar d2 && sep s && k rest2
        | _ => false))
  | [] => false

/-- Regex `/^\d{4}[-\/年]\d{1,2}[-\/月]\d{1,2}/` (date pattern). -/
def matchesDatePattern (line : Str) : Bool :=
  match line with
  | d1 :: d2 :: d3 :: d4 :: rest =>
    isDigitChar d1 && isDigitChar d2 && isDigitChar d3 && isDigitChar d4 &&
      (match rest with
       | s1 :: rest1 =>
         (s1 = '-' || s1 = '/' || s1 = '年') &&
           digits12Sep (fun c => c = '-' || c = '/' || c = '月')
             (fun rest2 =>
               match rest2 with
               | d :: _ => isDigitChar d
               | [] => false) rest1
       | [] => false)
  | _ => false

/-- Regex `/^[\d\s\-\/年月日時分秒:]+$/` (time/date-only lines). -/
def matchesDateOnlyLine (line : Str) : Bool :=
  !line.isEmpty && line.all fun c =>
    isDigitChar c || isJsWs c || c = '-' || c = '/' ||
    c = '年' || c = '月' || c = '日' || c = '時' || c = '分' || c = '秒' || c = ':'

/-- Regex `/^[　\s]*$/` (empty or whitespace-only lines; `　` is U+3000,
already contained in `\s`). -/
def matchesWsOnlyLine (line : Str) : Bool :=
  line.all isJsWs

/-- The `excludePatterns` list of `cleanExtractedContent`: a line is excluded
when any of the seventeen patterns matches (`.some(pattern => pattern.test(line))`). -/
def matchesExcludePatterns (line : Str) : Bool :=
  startsWithAnyCI [strL "advertisement", strL "ad", strL "sponsored",
    strL "関連記事", strL "広告", strL "pr", strL "プロモーション"] line ||
  startsWithAnyCI [strL "share", strL "シェア", strL "tweet", strL "ツイート",
    strL "facebook", strL "line"] line ||
  startsWithAnyCI [strL "cookie", strL "クッキー", strL "privacy",
    strL "プライバシー", strL "利用規約", strL "terms"] line ||
  startsWithAnyCI [strL "subscribe", strL "登録", strL "newsletter",
    strL "メルマガ"] line ||
  startsWithAnyCI [strL "follow", strL "フォロー", strL "social", strL "sns"] line ||
  (startsWithWordWs (strL "more") [strL "news", strL "articles"] line ||
    startsWithAnyCI [strL "その他のニュース", strL "関連記事"] line) ||
  startsWithAnyCI [strL "navigation", strL "ナビゲーション", strL "menu",
    strL "メニュー"] line ||
  startsWithAnyCI [strL "category", strL "カテゴリ", strL "tag", strL "タグ"] line ||
  startsWithAnyCI [strL "date", strL "日時", strL "time", strL "published",
    strL "投稿日"] line ||
  startsWithAnyCI [strL "author", strL "著者", strL "writer", strL "筆者"] line ||
  startsWithAnyCI [strL "source", strL "出典", strL "via", strL "引用元"] line ||
  (startsWithWordWs (strL "read") [strL "more"] line ||
    startsWithAnyCI [strL "続きを読む", strL "もっと見る"] line) ||
  (startsWithWordWs (strL "back") [strL "to"] line ||
    startsWithAnyCI [strL "戻る", strL "トップに戻る"] line) ||
  matchesDatePattern line ||
  matchesDateOnlyLine line ||
  matchesWsOnlyLine line

/-- Model of `const minLineLength = 10` in `cleanExtractedContent`. -/
def minLineLength : Nat := 10

/-- Model of `const maxRepeatedChars = 5` in `cleanExtractedContent`. -/
def maxRepeatedChars : Nat := 5

/-- Model of `const longLineThreshold = 100` in `cleanExtractedContent`. -/
def longLineThreshold : Nat := 100

/-- The inner run-count of `hasRepeatedChars`: number of further consecutive
occurrences of `c` at the head of the remaining text, plus one for `c` itself. -/
def countRun (c : Char) : Str → Nat
  | [] => 0
  | d :: t => if d = c then 1 + countRun c t else 0

/-- Loop body of `hasRepeatedChars(text, maxRepeated)`: index `i` runs while
`i < text.length - maxRepeated`, i.e. while the remaining suffix is longer
than `maxRepeated`. -/
def hasRepeatedCharsAux (maxRepeated : Nat) : Str → Bool
  | [] => false
  | c :: t =>
    if maxRepeated < t.length + 1 then
      (if maxRepeated < 1 + countRun c t then true else hasRepeatedCharsAux maxRepeated t)
    else false

/-- Model of `hasRepeatedChars` of src/extractor.ts: some character repeats more than
`maxRepeated` times consecutively. -/
def hasRepeatedChars (text : Str) (maxRepeated : Nat) : Bool :=
  hasRepeatedCharsAux maxRepeated text

/-- Model of `isLikelyUIElement` of src/extractor.ts. -/
def isLikelyUIElement (line : Str) : Bool :=
  (!line.isEmpty && line.all fun c =>
    c = '<' || c = '>' || c = '«' || c = '»' || c = '‹' || c = '›' ||
    c = '[' || c = ']' || c = '(' || c = ')' || c = '{' || c = '}') ||
  (!line.isEmpty && line.all fun c =>
    isDigitChar c || isJsWs c || c = '-' || c = '+' || c = '*' || c = '.') ||
  (let m := line.dropWhile isJsWs
   let a := m.takeWhile fun c =>
     c = '▼' || c = '▲' || c = '►' || c = '◄' || c = '△' || c = '▽'
   !a.isEmpty && (m.drop a.length).all isJsWs) ||
  (let m := line.dropWhile isJsWs
   let a := m.takeWhile fun c =>
     c = '■' || c = '□' || c = '●' || c = '○' || c = '◆' || c = '◇' ||
     c = '★' || c = '☆'
   !a.isEmpty && (m.drop a.length).all isJsWs) ||
  startsWithAnyCI [strL "click", strL "クリック", strL "tap", strL "タップ",
    strL "press", strL "プレス"] line ||
  startsWithAnyCI [strL "here", strL "こちら", strL "ここ", strL "above",
    strL "below", strL "上記", strL "下記"] line

/-- Loop body of `cleanExtractedContent`: a (trimmed, non-empty) line is kept
unless one of the four `continue` conditions fires. -/
def keepLine (line : Str) : Bool :=
  if line.length < minLineLength then false
  else if line.length < longLineThreshold && hasRepeatedChars line maxRepeatedChars then false
  else if matchesExcludePatterns line then false
  else if isLikelyUIElement line then false
  else true

/-- The line preprocessing of `cleanExtractedContent`:
`content.split('\n').map(line => line.trim()).filter(line => line.length > 0)`. -/
def lineList (content : Str) : List Str :=
  ((splitLines content).map trim).filter fun line => 0 < line.length

/-- Model of `cleanExtractedContent` of src/extractor.ts (the `debug` parameter only
controls logging and is omitted). -/
def cleanExtractedContent (content : Str) : Str :=
  joinBlank ((lineList content).filter keepLine)

/-! ## HtmlExtractor (src/extractor.ts, `extractTextContent` / `extractArticleHtml`)

The DOM (jsdom) and the `@extractus/article-extractor` library are external;
they are modelled by a record of query results and by explicit parameters:
`render` stands for `new JSDOM(html).window.document.body.textContent || ''`
applied to the article-extractor output, and `artRes` for the outcome of
`extract(html)` (which may throw, return null, or return an article). -/

/-- Result record of `extract(html)` from `@extractus/article-extractor`. -/
structure ArticleResult where
  title : Option Str
  content : Option Str
deriving DecidableEq

/-- Query results of the jsdom document built from the input HTML, after the
element removals performed by the source.  `selTexts` are the `textContent`
of `document.querySelector(sel)` for the fourteen content selectors in order
(after removing script/style/noscript), `paraTexts` the `textContent` of each
`<p>` in document order, `artSelInner` the `innerHTML` of the selector probes
of `extractArticleHtml` (after its own removals), `bodyInner` the body
`innerHTML` there, and `bodyText` is `document.body?.textContent`. -/
structure DocModel where
  titleText : Option Str
  h1Text : Option Str
  ogTitle : Option Str
  selTexts : List (Option Str)
  paraTexts : List (Option Str)
  bodyText : Option Str
  artSelInner : List (Option Str)
  bodyInner : Option Str
deriving DecidableEq

/-- Result record of `extractTextContent`. -/
structure ExtractedContent where
  title : Str
  content : Str
  htmlContent : Str
deriving DecidableEq

/-- Selector loop of `extractArticleHtml`: first probed element whose
`innerHTML` is truthy and longer than 100 characters. -/
def firstInnerHtml : List (Option Str) → Option Str
  | [] => none
  | none :: rest => firstInnerHtml rest
  | some h :: rest =>
    if !h.isEmpty && 100 < h.length then some h else firstInnerHtml rest

/-- Model of `extractArticleHtml` of src/extractor.ts: first selector whose `innerHTML`
is truthy and longer than 100 characters, else `document.body?.innerHTML || html`. -/
def extractArticleHtml (d : DocModel) (html : Str) : Str :=
  match firstInnerHtml d.artSelInner with
  | some h => h
  | none => jsOrStr d.bodyInner html

/-- Content-selector loop of the fallback extraction: first selector whose
`textContent` is truthy with trimmed length above 100 wins (`content` keeps
the untrimmed text); otherwise `content` stays `''`. -/
def firstSelContent : List (Option Str) → Str
  | [] => []
  | none :: rest => firstSelContent rest
  | some t :: rest =>
    if !t.isEmpty && 100 < (trim t).length then t else firstSelContent rest

/-- Paragraph fallback: collect each `p.textContent?.trim()` that is truthy
and longer than 20 characters. -/
def paragraphTexts (ps : List (Option Str)) : List Str :=
  ps.filterMap fun t =>
    match t with
    | none => none
    | some s =>
      let text := trim s
      if !text.isEmpty && 20 < text.length then some text else none

/-- Fallback content computation of `extractTextContent` (selector probe, then
paragraph scrape, then body text). -/
def fallbackContent (d : DocModel) : Str :=
  let content := firstSelContent d.selTexts
  let content :=
    if content.isEmpty || (trim content).length < 100 then
      let ps := paragraphTexts d.paraTexts
      if 0 < ps.length then joinBlank ps else content
    else content
  if content.isEmpty then jsOrStr d.bodyText [] else content

/-- Fallback extraction of `extractTextContent` (the code after the `try`
block): title from `<title> || <h1> || og:title || 'Untitled'`, content from
the selector/paragraph/body fallbacks, both trimmed. -/
def extractFallback (d : DocModel) (htmlContent : Str) : ExtractedContent :=
  let title := jsOrStr d.titleText (jsOrStr d.h1Text (jsOrStr d.ogTitle (strL "Untitled")))
  let cleanedContent := cleanExtractedContent (fallbackContent d)
  { title := trim title, content := trim cleanedContent, htmlContent := htmlContent }

/-- Model of `extractTextContent` of src/extractor.ts.  `render c` models
`new JSDOM(c).window.document.body.textContent || ''`; `artRes` models the
(possibly throwing) `extract(html)` call; `html` is the raw input. -/
def extractTextContent (render : Str → Str) (artRes : Except Unit (Option ArticleResult))
    (d : DocModel) (html : Str) : ExtractedContent :=
  let htmlContent := extractArticleHtml d html
  match artRes with
  | .error _ => extractFallback d htmlContent
  | .ok none => extractFallback d htmlContent
  | .ok (some article) =>
    match article.content with
    | none => extractFallback d htmlContent
    | some c =>
      if 100 < c.length then
        let textContent := render c
        let cleanedContent := cleanExtractedContent textContent
        if 100 < cleanedContent.length then
          { title := jsOrStr article.title (strL "Untitled"),
            content := trim cleanedContent, htmlContent := htmlContent }
        else extractFallback d htmlContent
      else extractFallback d htmlContent

/-! ## PdfExtractor (src/fetcher.ts, `extractTitleFromPdfText` / `fetchPdfContent`) -/

/-- Model of `const TITLE_SEARCH_LINES = 10`. -/
def TITLE_SEARCH_LINES : Nat := 10

/-- Model of `const MIN_TITLE_LENGTH = 10`. -/
def MIN_TITLE_LENGTH : Nat := 10

/-- Model of `const MAX_TITLE_LENGTH = 200`. -/
def MAX_TITLE_LENGTH : Nat := 200

/-- Regex `/^\d+$/` (bare page numbers). -/
def isBarePageNumber (s : Str) : Bool :=
  !s.isEmpty && s.all isDigitChar

/-- Title-search loop of `extractTitleFromPdfText`. -/
def findTitleLoop : List Str → Option Str
  | [] => none
  | line :: rest =>
    let trimmed := trim line
    if MIN_TITLE_LENGTH < trimmed.length && trimmed.length < MAX_TITLE_LENGTH then
      if !isBarePageNumber trimmed && !containsSub (strL "Page ") trimmed &&
          !containsSub (strL "©") trimmed then
        some trimmed
      else findTitleLoop rest
    else findTitleLoop rest

/-- Model of `extractTitleFromPdfText` of src/fetcher.ts. -/
def extractTitleFromPdfText (text : Str) : Option Str :=
  findTitleLoop
    (((splitLines text).filter fun line => 0 < (trim line).length).take TITLE_SEARCH_LINES)

/-- Model of `const title = extractTitleFromPdfText(content) || 'PDF Document'` on the
PDF path (a qualifying title is non-empty, so `||` is a plain default). -/
def pdfTitleOf (content : Str) : Str :=
  (extractTitleFromPdfText content).getD (strL "PDF Document")

/-- Model of `escape` from the html-escaper package. -/
def htmlEscape (s : Str) : Str :=
  s.flatMap fun c =>
    if c = '&' then strL "&amp;"
    else if c = '<' then strL "&lt;"
    else if c = '>' then strL "&gt;"
    else if c = '\'' then strL "&#39;"
    else if c = '"' then strL "&quot;"
    else [c]

/-! ## ContentFetcher (src/fetcher.ts, `isPdfUrl` / `fetchPdfContent` / `fetchContent`) -/

/-- Relevant components of a successfully parsed WHATWG `URL`. -/
structure ParsedUrl where
  hostname : Str
  pathname : Str
deriving DecidableEq

/-- Model of `isPdfUrl` of src/fetcher.ts, on a URL that parsed successfully (the
regex fallback of its `catch` arm is unreachable from `fetchContent`, which
always passes a serialization of an already-parsed URL). -/
def isPdfUrl (u : ParsedUrl) : Bool :=
  if endsWith (strL ".pdf") (toLower u.pathname) then true
  else if toLower u.hostname == strL "arxiv.org" && containsSub (strL "/pdf/") u.pathname then
    true
  else false

/-- Which extraction path `fetchContent` takes for a parsed URL. -/
inductive ExtractionPath where
  | pdf
  | html
deriving DecidableEq

/-- Path dispatch of `fetchContent` (src/fetcher.ts line 156): the branch is
chosen from the URL alone; the HTTP response — in particular its
`Content-Type` header, carried here as an explicit unused parameter — is only
obtained afterwards, inside the chosen branch. -/
def fetchContentPath (u : ParsedUrl) (responseContentType : Str) : ExtractionPath :=
  if isPdfUrl u then ExtractionPath.pdf else ExtractionPath.html

/-- Result record of `fetchContent`. -/
structure FetchResult where
  title : Str
  content : Str
  extractedUrl : Str
  htmlContent : Str
deriving DecidableEq

/-- Error classes that `fetchContent`/`fetchPdfContent` can surface. -/
inductive FetchErr where
  /-- Model of `'Invalid URL provided'`. -/
  | invalidUrl
  /-- Model of `` `HTTP error! status: ${response.status}` `` escaping `fetchPdfContent`. -/
  | httpError
  /-- Model of `` `PDF parsing error: ...` `` / `` `PDF text extraction error: ...` ``. -/
  | pdfParseError
  /-- Model of `'Could not extract meaningful content from the page'`. -/
  | extractionFailed
  /-- Any error propagating out of the puppeteer calls of the fallback tier. -/
  | browserError
deriving DecidableEq

/-- An HTTP response as far as the source consults it. -/
structure HttpResponse where
  ok : Bool
  body : Str
deriving DecidableEq

/-- Model of `fetchPdfContent` of src/fetcher.ts: fatal `HTTP error!` on a non-2xx
response, then the pdf2json parse (modelled by its outcome `parsed`, the
page/run text concatenation being library work). -/
def fetchPdfContent (respOk : Bool) (parsed : Except Unit Str) (url : Str) :
    Except FetchErr FetchResult :=
  if !respOk then Except.error FetchErr.httpError
  else
    match parsed with
    | .error _ => Except.error FetchErr.pdfParseError
    | .ok content =>
      let title := pdfTitleOf content
      Except.ok
        { title := title
          content := trim content
          extractedUrl := url
          htmlContent :=
            strL "<html><head><title>" ++ htmlEscape title ++
            strL "</title></head><body><pre>" ++ htmlEscape content ++
            strL "</pre></body></html>" }

/-- Headless-browser fallback tier of `fetchContent` (lines 199-338): the
puppeteer navigation and extraction are modelled by their outcome `tier2`;
a propagated browser error surfaces as such, extracted content shorter than
100 characters raises `'Could not extract meaningful content from the page'`,
anything else is returned. -/
def browserTier (tier2 : Except Unit ExtractedContent) (urlStr : Str) :
    Except FetchErr FetchResult :=
  match tier2 with
  | .error _ => Except.error FetchErr.browserError
  | .ok e =>
    if e.content.length < 100 then Except.error FetchErr.extractionFailed
    else Except.ok
      { title := e.title, content := e.content, extractedUrl := urlStr,
        htmlContent := e.htmlContent }

/-- HTML path of `fetchContent` (lines 163-338): the tier-1 `fetch` outcome is
`resp` (`.error` for a network failure), `extractor` is `extractTextContent`
applied to the response body, and `tier2` the browser-tier outcome.  A non-ok
tier-1 response throws inside the `try`, is caught, and falls back; a tier-1
extraction longer than 100 characters returns immediately. -/
def fetchContentHtml (resp : Except Unit HttpResponse) (extractor : Str → ExtractedContent)
    (tier2 : Except Unit ExtractedContent) (urlStr : Str) : Except FetchErr FetchResult :=
  match resp with
  | .error _ => browserTier tier2 urlStr
  | .ok r =>
    if r.ok then
      let e := extractor r.body
      if 100 < e.content.length then
        Except.ok
          { title := e.title, content := e.content, extractedUrl := urlStr,
            htmlContent := e.htmlContent }
      else browserTier tier2 urlStr
    else browserTier tier2 urlStr

/-- Tier 1 yielded no text above the threshold: the fetch failed, the response
was non-2xx, or the extracted content length was at most 100. -/
def tier1Insufficient (resp : Except Unit HttpResponse) (extractor : Str → ExtractedContent) :
    Prop :=
  match resp with
  | .error _ => True
  | .ok r => r.ok = false ∨ (extractor r.body).content.length ≤ 100

/-! ## ThumbnailSelector (thumbnail-extraction code used by src/summarizer.ts)

The jsdom queries are modelled by a `ThumbDoc` record; `resolve` stands for
`url => convertRelativeToAbsolute(url, baseUrl)` (whose non-trivial branches
delegate to the WHATWG `URL` resolver of the runtime). -/

/-- Source tier of an image candidate. -/
inductive ImgSource where
  | meta
  | article
  | general
deriving DecidableEq, BEq

/-- An `<img>` element as far as the source consults it.  `width`/`height`
model `imgElement.width || parseInt(imgElement.getAttribute('width') || '0')`:
`some n` is a truthy numeric result `n`, `none` covers `0` and `NaN`, which
are falsy and fail every numeric comparison the code performs. -/
structure ImgElem where
  srcAttr : Option Str
  dataSrc : Option Str
  width : Option Nat
  height : Option Nat
  alt : Str
  className : Str
deriving DecidableEq

/-- Model of `imgElement.getAttribute('src') || imgElement.getAttribute('data-src')`,
followed by the `if (src)` truthiness guard. -/
def effSrc (e : ImgElem) : Option Str :=
  match jsTruthy e.srcAttr with
  | some s => some s
  | none => jsTruthy e.dataSrc

/-- Model of `ImageCandidate` of the thumbnail extractor. -/
structure ImageCandidate where
  url : Str
  width : Option Nat
  height : Option Nat
  alt : Option Str
  className : Option Str
  source : ImgSource
deriving DecidableEq

/-- Query results of the jsdom document for `extractImagesFromHtml`: the
first-match attribute value (`content` resp. `href`) for each of the four
meta selectors in order, the `<img>` element lists of the seven article
selectors in order, and all `<img>` elements of the document in order. -/
structure ThumbDoc where
  ogImage : Option Str
  twitterImage : Option Str
  ogImageUrl : Option Str
  imageSrcLink : Option Str
  articleImgs : List (List ImgElem)
  allImgs : List ImgElem
deriving DecidableEq

/-- A meta-tier candidate record (`{ url, source: 'meta' }`; the other fields
are absent). -/
def metaCandOf (url : Str) : ImageCandidate :=
  { url := url, width := none, height := none, alt := none, className := none,
    source := ImgSource.meta }

/-- Meta phase of `extractImagesFromHtml`: for each selector with a match
whose url attribute is truthy, push a `source: 'meta'` candidate. -/
def metaCandidates (resolve : Str → Str) (d : ThumbDoc) : List ImageCandidate :=
  [d.ogImage, d.twitterImage, d.ogImageUrl, d.imageSrcLink].filterMap fun o =>
    match jsTruthy o with
    | some url => some (metaCandOf (resolve url))
    | none => none

/-- Article phase of `extractImagesFromHtml`: every `<img>` matched by one of
the article selectors, in selector order, with a truthy `src`/`data-src`. -/
def articleCandidates (resolve : Str → Str) (groups : List (List ImgElem)) :
    List ImageCandidate :=
  (groups.map fun group =>
    group.filterMap fun e =>
      match effSrc e with
      | some src =>
        some { url := resolve src, width := e.width, height := e.height,
               alt := some e.alt, className := some e.className,
               source := ImgSource.article }
      | none => none).flatten

/-- General phase of `extractImagesFromHtml`: fold over all `<img>` elements,
appending a `source: 'general'` candidate unless a candidate with the same
resolved URL was already collected. -/
def addGeneralImages (resolve : Str → Str) (images : List ImageCandidate) :
    List ImgElem → List ImageCandidate
  | [] => images
  | e :: rest =>
    match effSrc e with
    | none => addGeneralImages resolve images rest
    | some src =>
      let absoluteUrl := resolve src
      if images.any fun existing => existing.url == absoluteUrl then
        addGeneralImages resolve images rest
      else
        addGeneralImages resolve
          (images ++ [{ url := absoluteUrl, width := e.width, height := e.height,
                        alt := some e.alt, className := some e.className,
                        source := ImgSource.general }]) rest

/-- Model of `extractImagesFromHtml` of the thumbnail extractor. -/
def extractImagesFromHtml (resolve : Str → Str) (d : ThumbDoc) : List ImageCandidate :=
  addGeneralImages resolve (metaCandidates resolve d ++ articleCandidates resolve d.articleImgs)
    d.allImgs

/-- Model of `unwantedUrlPatterns` of `filterUnwantedImages`. -/
def unwantedUrlPatterns : List Str :=
  [strL "/favicon", strL "/icon", strL "/logo", strL "/avatar", strL "/ad/",
   strL "/ads/", strL "favicon.", strL "logo.", strL "icon.", strL "avatar.",
   strL "sprite.", strL "placeholder", strL "default", strL "thumb", strL "mini"]

/-- Model of `unwantedAltPatterns` of `filterUnwantedImages`. -/
def unwantedAltPatterns : List Str :=
  [strL "icon", strL "logo", strL "avatar", strL "ad", strL "advertisement",
   strL "sponsor", strL "favicon", strL "button", strL "arrow", strL "bullet"]

/-- Model of `unwantedClassPatterns` of `filterUnwantedImages`. -/
def unwantedClassPatterns : List Str :=
  [strL "icon", strL "logo", strL "avatar", strL "ad", strL "advertisement",
   strL "favicon", strL "sprite", strL "button"]

/-- Body of the `filter` in `filterUnwantedImages`: `true` keeps the image. -/
def keepImage (image : ImageCandidate) : Bool :=
  let url := toLower image.url
  let alt := toLower (image.alt.getD [])
  let className := toLower (image.className.getD [])
  if startsWith (strL "data:") url then false
  else if (match image.width with | some w => w < 100 | none => false) ||
      (match image.height with | some h => h < 100 | none => false) then false
  else if unwantedUrlPatterns.any (fun pattern => containsSub pattern url) then false
  else if unwantedAltPatterns.any (fun pattern => containsSub pattern alt) then false
  else if unwantedClassPatterns.any (fun pattern => containsSub pattern className) then false
  else true

/-- Model of `filterUnwantedImages` of the thumbnail extractor. -/
def filterUnwantedImages (images : List ImageCandidate) : List ImageCandidate :=
  images.filter keepImage

/-- The large-image preference predicate
`(img.width && img.width > 300) || (img.height && img.height > 300)`. -/
def isLargeImage (img : ImageCandidate) : Bool :=
  (match img.width with | some w => 300 < w | none => false) ||
  (match img.height with | some h => 300 < h | none => false)

/-- Priorities 2 and 3 of `selectBestThumbnail` (article images, preferring
ones larger than 300px, then general images likewise). -/
def selectArticleTier (images : List ImageCandidate) : Option Str :=
  match images.filter fun img => img.source == ImgSource.article with
  | a :: arest =>
    (match (a :: arest).filter isLargeImage with
     | l :: _ => some l.url
     | [] => some a.url)
  | [] =>
    match images.filter fun img => img.source == ImgSource.general with
    | g :: grest =>
      (match (g :: grest).filter isLargeImage with
       | l :: _ => some l.url
       | [] => some g.url)
    | [] => none

/-- Model of `selectBestThumbnail` of the thumbnail extractor: priority 1 is the first
meta image, the lower priorities are `selectArticleTier`. -/
def selectBestThumbnail (images : List ImageCandidate) : Option Str :=
  match images with
  | [] => none
  | _ :: _ =>
    match images.filter fun img => img.source == ImgSource.meta with
    | m :: _ => some m.url
    | [] => selectArticleTier images

/-- Model of `extractThumbnailFromHtml` of the thumbnail extractor (its `catch` arm
returns `undefined` on an error; the model is total). -/
def extractThumbnailFromHtml (resolve : Str → Str) (d : ThumbDoc) : Option Str :=
  selectBestThumbnail (filterUnwantedImages (extractImagesFromHtml resolve d))

/-! ## String-level lemmas -/

theorem dropWhile_head_false {p : Char → Bool} {l : Str} {a : Char} {t : Str}
    (h : l.dropWhile p = a :: t) : p a = false := by
  induction l with
  | nil => simp at h
  | cons c cs ih =>
    rw [List.dropWhile_cons] at h
    by_cases hc : p c = true
    · rw [if_pos hc] at h
      exact ih h
    · rw [if_neg hc] at h
      obtain ⟨h1, h2⟩ := List.cons.inj h
      subst h1
      simpa using hc

theorem dropWhile_of_head_false {p : Char → Bool} {a : Char} {t : Str}
    (h : p a = false) : (a :: t).dropWhile p = a :: t := by
  rw [List.dropWhile_cons]
  simp [h]

theorem dropWhile_idem (p : Char → Bool) (l : Str) :
    (l.dropWhile p).dropWhile p = l.dropWhile p := by
  cases hd : l.dropWhile p with
  | nil => rfl
  | cons a t => exact dropWhile_of_head_false (dropWhile_head_false hd)

theorem trimLeft_idem (s : Str) : trimLeft (trimLeft s) = trimLeft s :=
  dropWhile_idem isJsWs s

theorem trimRight_eq_self_of_getLast {t : Str} {b : Char} {rest : Str}
    (h : t.reverse = b :: rest) (hb : isJsWs b = false) : trimRight t = t := by
  unfold trimRight
  rw [h, dropWhile_of_head_false hb, ← h, List.reverse_reverse]

theorem trim_idem (s : Str) : trim (trim s) = trim s := by
  show trimLeft (trimRight (trimLeft (trimRight s))) = trimLeft (trimRight s)
  cases ht : trimLeft (trimRight s) with
  | nil => rfl
  | cons a u =>
    obtain ⟨pre, hpre⟩ : trimLeft (trimRight s) <:+ trimRight s := List.dropWhile_suffix isJsWs
    have hrev : (trimRight s).reverse = List.dropWhile isJsWs s.reverse := by
      unfold trimRight
      rw [List.reverse_reverse]
    obtain ⟨b, rest, hbr⟩ : ∃ b rest, (a :: u).reverse = b :: rest := by
      cases hx : (a :: u).reverse with
      | nil => exact absurd (congrArg List.length hx) (by simp)
      | cons b rest => exact ⟨b, rest, rfl⟩
    have hb : isJsWs b = false := by
      apply dropWhile_head_false (l := s.reverse) (t := rest ++ pre.reverse)
      rw [← hrev, ← hpre, ht, List.reverse_append, hbr]
      rfl
    have h1 : trimRight (a :: u) = a :: u := trimRight_eq_self_of_getLast hbr hb
    have h2 : trimLeft (a :: u) = a :: u := by
      rw [← ht]
      exact trimLeft_idem _
    rw [h1, h2]

theorem mem_trimLeft {c : Char} {s : Str} (h : c ∈ trimLeft s) : c ∈ s := by
  obtain ⟨pre, hpre⟩ := List.dropWhile_suffix (l := s) isJsWs
  rw [← hpre]
  exact List.mem_append_right pre h

theorem mem_trim {c : Char} {s : Str} (h : c ∈ trim s) : c ∈ s := by
  have h1 : c ∈ trimRight s := mem_trimLeft h
  unfold trimRight at h1
  rw [List.mem_reverse] at h1
  have h2 : c ∈ s.reverse := mem_trimLeft h1
  rwa [List.mem_reverse] at h2

theorem splitLines_cons (c : Char) (rest : Str) :
    splitLines (c :: rest) =
      if c = '\n' then [] :: splitLines rest
      else (c :: (splitLines rest).headD []) :: (splitLines rest).tail := rfl

theorem splitLines_ne_nil (s : Str) : splitLines s ≠ [] := by
  cases s with
  | nil => simp [splitLines]
  | cons c t =>
    rw [splitLines_cons]
    by_cases hc : c = '\n'
    · simp [hc]
    · simp [hc]

theorem splitLines_no_newline {s : Str} (h : '\n' ∉ s) : splitLines s = [s] := by
  induction s with
  | nil => rfl
  | cons c t ih =>
    have hc : ¬ c = '\n' := fun hh => h (hh ▸ List.mem_cons_self c t)
    have ht : '\n' ∉ t := fun hh => h (List.mem_cons_of_mem c hh)
    rw [splitLines_cons, if_neg hc, ih ht]
    rfl

theorem splitLines_append_newline {l : Str} (s : Str) (h : '\n' ∉ l) :
    splitLines (l ++ '\n' :: s) = l :: splitLines s := by
  induction l with
  | nil => simp [splitLines_cons, splitLines]
  | cons c t ih =>
    have hc : ¬ c = '\n' := fun hh => h (hh ▸ List.mem_cons_self c t)
    have ht : '\n' ∉ t := fun hh => h (List.mem_cons_of_mem c hh)
    rw [List.cons_append, splitLines_cons, if_neg hc, ih ht]
    rfl

theorem mem_splitLines_no_newline {s : Str} : ∀ l ∈ splitLines s, '\n' ∉ l := by
  induction s with
  | nil =>
    intro l hl
    simp [splitLines] at hl
    simp [hl]
  | cons c t ih =>
    intro l hl
    rw [splitLines_cons] at hl
    by_cases hc : c = '\n'
    · rw [if_pos hc] at hl
      rcases List.mem_cons.mp hl with h | h
      · simp [h]
      · exact ih l h
    · rw [if_neg hc] at hl
      cases hsp : splitLines t with
      | nil => exact absurd hsp (splitLines_ne_nil t)
      | cons l₀ ls =>
        rw [hsp] at hl
        simp only [List.headD_cons, List.tail_cons] at hl
        rcases List.mem_cons.mp hl with h | h
        · subst h
          intro hmem
          rcases List.mem_cons.mp hmem with h | h
          · exact hc h.symm
          · exact ih l₀ (hsp ▸ List.mem_cons_self l₀ ls) h
        · exact ih l (hsp ▸ List.mem_cons_of_mem l₀ h)

/-! ## Structure of `cleanExtractedContent` output -/

theorem lineList_joinBlank : ∀ ls : List Str,
    (∀ l ∈ ls, trim l = l ∧ l ≠ [] ∧ '\n' ∉ l) → lineList (joinBlank ls) = ls := by
  intro ls
  induction ls with
  | nil => intro _; rfl
  | cons l rest ih =>
    intro h
    obtain ⟨h1, h2, h3⟩ := h l (List.mem_cons_self _ _)
    cases rest with
    | nil =>
      show lineList l = [l]
      unfold lineList
      rw [splitLines_no_newline h3, List.map_cons, List.map_nil, h1,
        List.filter_cons]
      simp [List.length_pos, h2]
    | cons l' rest' =>
      have ih' := ih (fun x hx => h x (List.mem_cons_of_mem _ hx))
      show lineList (l ++ '\n' :: '\n' :: joinBlank (l' :: rest')) = l :: l' :: rest'
      unfold lineList
      have htnil : trim [] = ([] : Str) := rfl
      rw [splitLines_append_newline _ h3, splitLines_cons, if_pos rfl,
        List.map_cons, List.map_cons, h1, htnil, List.filter_cons, List.filter_cons,
        if_pos (decide_eq_true (List.length_pos.mpr h2)), if_neg (by decide)]
      exact congrArg (l :: ·) ih'

theorem nonempty_lines_joinBlank : ∀ ls : List Str,
    (∀ l ∈ ls, l ≠ [] ∧ '\n' ∉ l) →
    (splitLines (joinBlank ls)).filter (fun l => 0 < l.length) = ls := by
  intro ls
  induction ls with
  | nil => intro _; rfl
  | cons l rest ih =>
    intro h
    obtain ⟨h2, h3⟩ := h l (List.mem_cons_self _ _)
    cases rest with
    | nil =>
      show (splitLines l).filter (fun l => 0 < l.length) = [l]
      rw [splitLines_no_newline h3, List.filter_cons]
      simp [List.length_pos, h2]
    | cons l' rest' =>
      have ih' := ih (fun x hx => h x (List.mem_cons_of_mem _ hx))
      show (splitLines (l ++ '\n' :: '\n' :: joinBlank (l' :: rest'))).filter
          (fun l => 0 < l.length) = l :: l' :: rest'
      rw [splitLines_append_newline _ h3, splitLines_cons, if_pos rfl,
        List.filter_cons, List.filter_cons,
        if_pos (decide_eq_true (List.length_pos.mpr h2)), if_neg (by decide)]
      exact congrArg (l :: ·) ih'

theorem mem_splitLines_joinBlank : ∀ ls : List Str,
    (∀ l ∈ ls, l ≠ [] ∧ '\n' ∉ l) →
    ∀ l ∈ splitLines (joinBlank ls), l = [] ∨ l ∈ ls := by
  intro ls
  induction ls with
  | nil =>
    intro _ l hl
    simp [joinBlank, splitLines] at hl
    exact Or.inl hl
  | cons l₀ rest ih =>
    intro h l hl
    obtain ⟨h2, h3⟩ := h l₀ (List.mem_cons_self _ _)
    cases rest with
    | nil =>
      rw [show joinBlank [l₀] = l₀ from rfl, splitLines_no_newline h3] at hl
      rcases List.mem_cons.mp hl with hh | hh
      · exact Or.inr (hh ▸ List.mem_cons_self _ _)
      · simp at hh
    | cons l' rest' =>
      have ih' := ih (fun x hx => h x (List.mem_cons_of_mem _ hx))
      rw [show joinBlank (l₀ :: l' :: rest') = l₀ ++ '\n' :: '\n' :: joinBlank (l' :: rest')
          from rfl, splitLines_append_newline _ h3, splitLines_cons, if_pos rfl] at hl
      rcases List.mem_cons.mp hl with hh | hh
      · exact Or.inr (hh ▸ List.mem_cons_self _ _)
      · rcases List.mem_cons.mp hh with hh' | hh'
        · exact Or.inl hh'
        · rcases ih' l hh' with hh'' | hh''
          · exact Or.inl hh''
          · exact Or.inr (List.mem_cons_of_mem _ hh'')

theorem keepLine_length {l : Str} (h : keepLine l = true) : minLineLength ≤ l.length := by
  unfold keepLine at h
  by_cases hlt : l.length < minLineLength
  · rw [if_pos hlt] at h
    exact absurd h (by simp)
  · omega

theorem mem_cleanLines {x : Str} : ∀ l ∈ (lineList x).filter keepLine,
    trim l = l ∧ l ≠ [] ∧ '\n' ∉ l ∧ keepLine l = true := by
  intro l hl
  obtain ⟨hmem, hkeep⟩ := List.mem_filter.mp hl
  unfold lineList at hmem
  obtain ⟨hmem', hlen⟩ := List.mem_filter.mp hmem
  obtain ⟨m, hm, hml⟩ := List.mem_map.mp hmem'
  refine ⟨?_, ?_, ?_, hkeep⟩
  · rw [← hml]
    exact trim_idem m
  · intro hnil
    rw [hnil] at hlen
    simp at hlen
  · intro hc
    rw [← hml] at hc
    exact mem_splitLines_no_newline m hm (mem_trim hc)

theorem cleanLines_props {x : Str} : ∀ l ∈ (lineList x).filter keepLine,
    trim l = l ∧ l ≠ [] ∧ '\n' ∉ l := by
  intro l hl
  obtain ⟨a, b, c, _⟩ := mem_cleanLines l hl
  exact ⟨a, b, c⟩

/-- C5: `cleanExtractedContent` (the `ContentCleaner.clean` of the spec) is
idempotent: cleaning already-cleaned text changes nothing, since every kept
line is trimmed, non-empty, newline-free and passes every filter again, and
the blank separator lines inserted by the paragraph join are dropped by the
empty-line filter. -/
theorem c5_clean_idempotent (x : Str) :
    cleanExtractedContent (cleanExtractedContent x) = cleanExtractedContent x := by
  unfold cleanExtractedContent
  rw [lineList_joinBlank _ (cleanLines_props (x := x)),
    List.filter_eq_self.mpr (fun l hl => (mem_cleanLines l hl).2.2.2)]

/-- C8 counterexample: on the two-line input `"abcdefghijk\nlmnopqrstuv"` both
lines are kept, so the output contains the blank separator line of the
paragraph join — a line of trimmed length 0 — refuting that every line of the
output has trimmed length at least 10. -/
theorem c8_blank_separator_cex :
    ¬ ∀ l ∈ splitLines (cleanExtractedContent (strL "abcdefghijk\nlmnopqrstuv")),
        10 ≤ (trim l).length := by
  decide

/-- C8 (amended): every line of `cleanExtractedContent x` is either empty (a
blank separator line of the paragraph-style join) or a trimmed kept line of
length at least 10; in particular every line of trimmed length under 10 was
removed, and no non-empty output line has (trimmed) length under 10. -/
theorem c8_min_line_length_amended (x : Str) :
    ∀ l ∈ splitLines (cleanExtractedContent x),
      l = [] ∨ (trim l = l ∧ minLineLength ≤ l.length) := by
  intro l hl
  unfold cleanExtractedContent at hl
  rcases mem_splitLines_joinBlank _
      (fun m hm => ⟨(cleanLines_props m hm).2.1, (cleanLines_props m hm).2.2⟩) l hl with
    h | h
  · exact Or.inl h
  · obtain ⟨ht, _, _, hk⟩ := mem_cleanLines l h
    exact Or.inr ⟨ht, keepLine_length hk⟩

/-- C8 witness: the amended theorem applied to a concrete kept line of the
concrete input used throughout. -/
theorem c8_min_line_length_witness :
    strL "abcdefghijk" = [] ∨
      (trim (strL "abcdefghijk") = strL "abcdefghijk" ∧
        minLineLength ≤ (strL "abcdefghijk").length) :=
  c8_min_line_length_amended (strL "abcdefghijk\nlmnopqrstuv")
    (strL "abcdefghijk") (by decide)

/-- C10 counterexample: the blank separator line in the output of
`cleanExtractedContent` is not the trim of any non-empty input line, refuting
that the lines of the output are among (a subsequence of) the trimmed
non-empty lines of the input. -/
theorem c10_blank_line_cex :
    ¬ ∀ l ∈ splitLines (cleanExtractedContent (strL "aabbccddeef\ngghhiijjkkl")),
        l ∈ lineList (strL "aabbccddeef\ngghhiijjkkl") := by
  decide

/-- C10 (amended): the non-empty lines of `cleanExtractedContent x` form a
subsequence of the trimmed non-empty lines of `x` (`lineList x`): the cleaner
never invents, merges, or reorders text; only the blank separator lines of
the paragraph join are extra. -/
theorem c10_lines_sublist_amended (x : Str) :
    List.Sublist
      ((splitLines (cleanExtractedContent x)).filter fun l => 0 < l.length)
      (lineList x) := by
  unfold cleanExtractedContent
  rw [nonempty_lines_joinBlank _
    (fun m hm => ⟨(cleanLines_props m hm).2.1, (cleanLines_props m hm).2.2⟩)]
  exact List.filter_sublist _

/-! ## Claims about the PDF title extraction -/

/-- Qualification predicate spelled out by the amended C6 claim: the trimmed
line has length strictly greater than 10 and strictly less than 200, is not a
bare page number, and contains neither `"Page "` nor `"©"`. -/
def pdfTitleQualifies (line : Str) : Bool :=
  10 < (trim line).length && (trim line).length < 200 &&
    (!isBarePageNumber (trim line) && !containsSub (strL "Page ") (trim line) &&
      !containsSub (strL "©") (trim line))

theorem findTitleLoop_eq_find? (ls : List Str) :
    findTitleLoop ls = (ls.find? pdfTitleQualifies).map trim := by
  induction ls with
  | nil => rfl
  | cons l rest ih =>
    have hstep : findTitleLoop (l :: rest) =
        (if 10 < (trim l).length && (trim l).length < 200 then
          if !isBarePageNumber (trim l) && !containsSub (strL "Page ") (trim l) &&
              !containsSub (strL "©") (trim l) then some (trim l)
          else findTitleLoop rest
        else findTitleLoop rest) := rfl
    rw [hstep, List.find?_cons]
    cases hq : pdfTitleQualifies l with
    | true =>
      have h' := hq
      unfold pdfTitleQualifies at h'
      rw [Bool.and_eq_true] at h'
      rw [if_pos h'.1, if_pos h'.2]
      rfl
    | false =>
      have h' := hq
      unfold pdfTitleQualifies at h'
      by_cases hA : (10 < (trim l).length && (trim l).length < 200) = true
      · rw [hA, Bool.true_and] at h'
        rw [if_pos hA, if_neg (by rw [h']; simp)]
        exact ih
      · rw [if_neg hA]
        exact ih

/-- C6 counterexample: a PDF text whose only line has trimmed length exactly
10 — qualifying under the claim's inclusive `between 10 and 200` reading
(not a bare page number, no `"Page "`, no copyright mark) — yields no title
from `extractTitleFromPdfText` (the code requires length strictly greater
than 10), so the title falls back to `"PDF Document"` instead of that line. -/
theorem c6_length_boundary_cex :
    (10 ≤ (trim (strL "ABCDEFGHIJ")).length ∧ (trim (strL "ABCDEFGHIJ")).length ≤ 200 ∧
      isBarePageNumber (trim (strL "ABCDEFGHIJ")) = false ∧
      containsSub (strL "Page ") (trim (strL "ABCDEFGHIJ")) = false ∧
      containsSub (strL "©") (trim (strL "ABCDEFGHIJ")) = false) ∧
    extractTitleFromPdfText (strL "ABCDEFGHIJ") = none ∧
    pdfTitleOf (strL "ABCDEFGHIJ") = strL "PDF Document" := by
  decide

/-- C6 (amended): `extractTitleFromPdfText` returns, among the first 10
non-empty lines of the text, the trim of the first line whose trimmed length
is strictly between 10 and 200 and which is neither a bare page number nor
contains `"Page "` or `"©"`; it returns `none` (so the title defaults to
`"PDF Document"`) when no such line exists. -/
theorem c6_pdf_title_amended (text : Str) :
    extractTitleFromPdfText text =
      ((((splitLines text).filter fun line => 0 < (trim line).length).take
          TITLE_SEARCH_LINES).find? pdfTitleQualifies).map trim ∧
    pdfTitleOf text =
      (((((splitLines text).filter fun line => 0 < (trim line).length).take
          TITLE_SEARCH_LINES).find? pdfTitleQualifies).map trim).getD
        (strL "PDF Document") := by
  constructor
  · unfold extractTitleFromPdfText
    exact findTitleLoop_eq_find? _
  · unfold pdfTitleOf extractTitleFromPdfText
    rw [findTitleLoop_eq_find?]

/-! ## Claims about URL classification and fetch control flow -/

/-- C4: a URL whose path ends in `.pdf` case-insensitively, or whose host is
`arxiv.org` with `/pdf/` in the path, is routed by `fetchContent` to the PDF
extraction path and never to the HTML extraction path, whatever the
`Content-Type` of the HTTP response might be (the response is only fetched
inside the chosen branch). -/
theorem c4_pdf_route (u : ParsedUrl) (responseContentType : Str)
    (h : endsWith (strL ".pdf") (toLower u.pathname) = true ∨
      (toLower u.hostname = strL "arxiv.org" ∧ containsSub (strL "/pdf/") u.pathname = true)) :
    fetchContentPath u responseContentType = ExtractionPath.pdf := by
  have hpdf : isPdfUrl u = true := by
    unfold isPdfUrl
    rcases h with h | ⟨h1, h2⟩
    · rw [if_pos h]
    · rw [h1, h2]
      simp
  unfold fetchContentPath
  rw [if_pos hpdf]

/-- C4 witness: a URL with an upper-case `.PDF` path and an HTML-looking
content type is routed to the PDF path. -/
theorem c4_pdf_route_witness :
    fetchContentPath ⟨strL "example.com", strL "/paper.PDF"⟩ (strL "text/html") =
      ExtractionPath.pdf :=
  c4_pdf_route ⟨strL "example.com", strL "/paper.PDF"⟩ (strL "text/html")
    (Or.inl (by decide))

/-- C7: a non-2xx HTTP response on the lightweight tier-1 HTML fetch is
non-fatal — `fetchContent` escalates to the headless-browser tier, whose
outcome alone决定 the result, and never surfaces an HTTP error — while a
non-2xx response on the PDF binary download makes `fetchPdfContent` fail with
the fatal HTTP error, with no escalation, regardless of the parse outcome. -/
theorem c7_http_error_semantics :
    (∀ (body : Str) (extractor : Str → ExtractedContent)
        (tier2 : Except Unit ExtractedContent) (u : Str),
      fetchContentHtml (Except.ok ⟨false, body⟩) extractor tier2 u = browserTier tier2 u ∧
      fetchContentHtml (Except.ok ⟨false, body⟩) extractor tier2 u ≠
        Except.error FetchErr.httpError) ∧
    (∀ (parsed : Except Unit Str) (u : Str),
      fetchPdfContent false parsed u = Except.error FetchErr.httpError) := by
  refine ⟨fun body extractor tier2 u => ⟨rfl, ?_⟩, fun parsed u => rfl⟩
  show browserTier tier2 u ≠ Except.error FetchErr.httpError
  cases tier2 with
  | error e => simp [browserTier]
  | ok e =>
    have hstep : browserTier (Except.ok e) u =
        (if e.content.length < 100 then Except.error FetchErr.extractionFailed
         else Except.ok { title := e.title, content := e.content, extractedUrl := u,
                          htmlContent := e.htmlContent }) := rfl
    rw [hstep]
    by_cases h : e.content.length < 100
    · rw [if_pos h]
      simp
    · rw [if_neg h]
      simp

/-! ## Claim C1: when does the HTML path fail with ExtractionFailedError -/

theorem browserTier_extractionFailed_iff (tier2 : Except Unit ExtractedContent) (u : Str) :
    browserTier tier2 u = Except.error FetchErr.extractionFailed ↔
      ∃ e2, tier2 = Except.ok e2 ∧ e2.content.length < 100 := by
  cases tier2 with
  | error e => simp [browserTier]
  | ok e =>
    have hstep : browserTier (Except.ok e) u =
        (if e.content.length < 100 then Except.error FetchErr.extractionFailed
         else Except.ok { title := e.title, content := e.content, extractedUrl := u,
                          htmlContent := e.htmlContent }) := rfl
    rw [hstep]
    by_cases h : e.content.length < 100
    · rw [if_pos h]
      simp [h]
    · rw [if_neg h]
      simp [h]

/-- C1 (amended): on the HTML path, `fetchContent` fails with the
`ExtractionFailedError`-class error exactly when tier 1 yielded no text
strictly longer than 100 characters (fetch error, non-2xx response, or
extracted length at most 100) and the browser tier ran to completion but
yielded text strictly shorter than 100 characters.  In particular a browser
tier yielding exactly 100 characters (at the threshold) succeeds. -/
theorem c1_extraction_failed_iff (resp : Except Unit HttpResponse)
    (extractor : Str → ExtractedContent) (tier2 : Except Unit ExtractedContent) (u : Str) :
    fetchContentHtml resp extractor tier2 u = Except.error FetchErr.extractionFailed ↔
      (tier1Insufficient resp extractor ∧
        ∃ e2, tier2 = Except.ok e2 ∧ e2.content.length < 100) := by
  cases resp with
  | error e =>
    have hstep : fetchContentHtml (Except.error e) extractor tier2 u = browserTier tier2 u := rfl
    rw [hstep, browserTier_extractionFailed_iff]
    have h3 : tier1Insufficient (Except.error e) extractor := trivial
    exact (and_iff_right h3).symm
  | ok r =>
    have hstep : fetchContentHtml (Except.ok r) extractor tier2 u =
        (if r.ok = true then
          (if 100 < (extractor r.body).content.length then
            Except.ok { title := (extractor r.body).title,
                        content := (extractor r.body).content, extractedUrl := u,
                        htmlContent := (extractor r.body).htmlContent }
          else browserTier tier2 u)
        else browserTier tier2 u) := rfl
    cases hok : r.ok with
    | false =>
      rw [hstep, hok, if_neg (by simp)]
      rw [browserTier_extractionFailed_iff]
      have h3 : tier1Insufficient (Except.ok r) extractor := Or.inl hok
      exact (and_iff_right h3).symm
    | true =>
      rw [hstep, hok, if_pos rfl]
      by_cases hlen : 100 < (extractor r.body).content.length
      · rw [if_pos hlen]
        constructor
        · intro h
          exact Except.noConfusion h
        · rintro ⟨hins, e2, ht2, hlt⟩
          have hins' : r.ok = false ∨ (extractor r.body).content.length ≤ 100 := hins
          rcases hins' with h | h
          · rw [hok] at h
            exact Bool.noConfusion h
          · omega
      · rw [if_neg hlen, browserTier_extractionFailed_iff]
        have h3 : tier1Insufficient (Except.ok r) extractor := Or.inr (by omega)
        exact (and_iff_right h3).symm

/-- C1 counterexample: both tiers produce cleaned text of length exactly 100
(at, not above, the threshold); the claim demands an
`ExtractionFailedError`, but the fetch succeeds with the browser tier's
result, because the tier-2 failure check is strict (`< 100`). -/
theorem c1_threshold_boundary_cex :
    ({ title := strL "t", content := List.replicate 100 'a', htmlContent := [] }
        : ExtractedContent).content.length ≤ 100 ∧
    fetchContentHtml (Except.ok { ok := true, body := [] })
        (fun _ => { title := strL "t", content := List.replicate 100 'a', htmlContent := [] })
        (Except.ok { title := strL "t", content := List.replicate 100 'a', htmlContent := [] })
        [] =
      Except.ok { title := strL "t", content := List.replicate 100 'a',
                  extractedUrl := [], htmlContent := [] } :=
  ⟨by decide, rfl⟩

/-! ## Claim C2: the extractor's title is a best effort, but can it be empty? -/

/-- A title source is harmless when it is absent, empty (so the `||` chain
skips it), or trims to something non-empty. -/
def titleSourceOk : Option Str → Bool
  | none => true
  | some s => s.isEmpty || !(trim s).isEmpty

theorem jsOrStr_none (b : Str) : jsOrStr none b = b := rfl

theorem jsOrStr_of_empty {s : Str} (h : s.isEmpty = true) (b : Str) :
    jsOrStr (some s) b = b := by
  simp [jsOrStr, jsTruthy, h]

theorem jsOrStr_of_nonempty {s : Str} (h : s.isEmpty = false) (b : Str) :
    jsOrStr (some s) b = s := by
  simp [jsOrStr, jsTruthy, h]

theorem trim_jsOrStr_chain : ∀ (opts : List (Option Str)),
    (∀ o ∈ opts, titleSourceOk o = true) →
    trim (opts.foldr jsOrStr (strL "Untitled")) ≠ [] := by
  intro opts
  induction opts with
  | nil =>
    intro _
    decide
  | cons o rest ih =>
    intro h
    have ho := h o (List.mem_cons_self _ _)
    have hrest := fun x hx => h x (List.mem_cons_of_mem _ hx)
    show trim (jsOrStr o (rest.foldr jsOrStr (strL "Untitled"))) ≠ []
    cases o with
    | none =>
      rw [jsOrStr_none]
      exact ih hrest
    | some s =>
      cases hs : s.isEmpty with
      | true =>
        rw [jsOrStr_of_empty hs]
        exact ih hrest
      | false =>
        rw [jsOrStr_of_nonempty hs]
        have ho' : (s.isEmpty || !(trim s).isEmpty) = true := ho
        rw [hs, Bool.false_or, Bool.not_eq_true'] at ho'
        intro hnil
        rw [hnil] at ho'
        exact Bool.noConfusion ho'

/-- C2 (amended): `extractTextContent` (being a total function of its
modelled inputs, it never throws) returns a non-empty title whenever every
present title source (`<title>` text, first `<h1>` text, `og:title` content)
that is non-empty does not consist of whitespace only; in that case a missing
title falls back to the placeholder `"Untitled"`.  (When the first non-empty
source is whitespace-only, the returned title is its trim — the empty
string — which is the counterexample to the claim as stated.) -/
theorem c2_title_nonempty_amended (render : Str → Str)
    (artRes : Except Unit (Option ArticleResult)) (d : DocModel) (html : Str)
    (h1 : titleSourceOk d.titleText = true) (h2 : titleSourceOk d.h1Text = true)
    (h3 : titleSourceOk d.ogTitle = true) :
    (extractTextContent render artRes d html).title ≠ [] := by
  have hchain :
      trim (jsOrStr d.titleText (jsOrStr d.h1Text (jsOrStr d.ogTitle (strL "Untitled")))) ≠
        [] := by
    have := trim_jsOrStr_chain [d.titleText, d.h1Text, d.ogTitle] (by
      intro o ho
      rcases List.mem_cons.mp ho with h | ho
      · rw [h]; exact h1
      rcases List.mem_cons.mp ho with h | ho
      · rw [h]; exact h2
      rcases List.mem_cons.mp ho with h | ho
      · rw [h]; exact h3
      · simp at ho)
    exact this
  have hfb : ∀ hc : Str, (extractFallback d hc).title ≠ [] := fun hc => hchain
  cases artRes with
  | error e => exact hfb _
  | ok oart =>
    cases oart with
    | none => exact hfb _
    | some article =>
      obtain ⟨atitle, acontent⟩ := article
      cases acontent with
      | none => exact hfb _
      | some c =>
        have hstep : extractTextContent render (Except.ok (some ⟨atitle, some c⟩)) d html =
            (if 100 < c.length then
              (if 100 < (cleanExtractedContent (render c)).length then
                { title := jsOrStr atitle (strL "Untitled"),
                  content := trim (cleanExtractedContent (render c)),
                  htmlContent := extractArticleHtml d html }
              else extractFallback d (extractArticleHtml d html))
            else extractFallback d (extractArticleHtml d html)) := rfl
        rw [hstep]
        by_cases hlen : 100 < c.length
        · rw [if_pos hlen]
          by_cases hcl : 100 < (cleanExtractedContent (render c)).length
          · rw [if_pos hcl]
            show jsOrStr atitle (strL "Untitled") ≠ []
            cases atitle with
            | none => decide
            | some s =>
              cases hs : s.isEmpty with
              | true =>
                rw [jsOrStr_of_empty hs]
                decide
              | false =>
                rw [jsOrStr_of_nonempty hs]
                intro hnil
                rw [hnil] at hs
                exact Bool.noConfusion hs
          · rw [if_neg hcl]
            exact hfb _
        · rw [if_neg hlen]
          exact hfb _

/-- C2 witness: the amended theorem at a document with no title sources at
all, whose extracted title is therefore the non-empty placeholder. -/
theorem c2_title_nonempty_witness :
    (extractTextContent (fun _ => []) (Except.ok none)
      { titleText := none, h1Text := none, ogTitle := none, selTexts := [],
        paraTexts := [], bodyText := none, artSelInner := [], bodyInner := none }
      []).title ≠ [] :=
  c2_title_nonempty_amended (fun _ => []) (Except.ok none)
    { titleText := none, h1Text := none, ogTitle := none, selTexts := [],
      paraTexts := [], bodyText := none, artSelInner := [], bodyInner := none }
    [] (by decide) (by decide) (by decide)

/-- C2 counterexample: an HTML document whose `<title>` element contains a
single space (and no other title source) makes `extractTextContent` return
the empty string as title — the `||` chain accepts the whitespace-only text
as truthy and the final `.trim()` empties it — refuting that the returned
title is never empty. -/
theorem c2_whitespace_title_cex :
    (extractTextContent (fun _ => []) (Except.ok none)
      { titleText := some (strL " "), h1Text := none, ogTitle := none,
        selTexts := [], paraTexts := [], bodyText := none,
        artSelInner := [], bodyInner := none } []).title = [] := by
  decide

/-! ## Claims C3 and C9: thumbnail candidate collection and selection -/

theorem addGeneralImages_step (resolve : Str → Str) (acc : List ImageCandidate)
    (e : ImgElem) (rest : List ImgElem) :
    addGeneralImages resolve acc (e :: rest) =
      (match effSrc e with
       | none => addGeneralImages resolve acc rest
       | some src =>
         if acc.any fun existing => existing.url == resolve src then
           addGeneralImages resolve acc rest
         else
           addGeneralImages resolve
             (acc ++ [{ url := resolve src, width := e.width, height := e.height,
                        alt := some e.alt, className := some e.className,
                        source := ImgSource.general }]) rest) := rfl

theorem addGeneralImages_extends (resolve : Str → Str) :
    ∀ (es : List ImgElem) (acc : List ImageCandidate),
      ∃ suf, addGeneralImages resolve acc es = acc ++ suf := by
  intro es
  induction es with
  | nil =>
    intro acc
    exact ⟨[], by simp [addGeneralImages]⟩
  | cons e rest ih =>
    intro acc
    rw [addGeneralImages_step]
    split
    · exact ih acc
    · split
      · exact ih acc
      · obtain ⟨suf, hsuf⟩ := ih _
        exact ⟨_, by rw [hsuf, List.append_assoc]⟩

theorem selectBestThumbnail_meta_head {c : ImageCandidate} {l : List ImageCandidate}
    (hc : c.source = ImgSource.meta) :
    selectBestThumbnail (c :: l) = some c.url := by
  have hf : List.filter (fun img => img.source == ImgSource.meta) (c :: l) =
      c :: List.filter (fun img => img.source == ImgSource.meta) l := by
    rw [List.filter_cons, if_pos (by rw [hc]; rfl)]
  have hstep : selectBestThumbnail (c :: l) =
      (match List.filter (fun img => img.source == ImgSource.meta) (c :: l) with
       | m :: _ => some m.url
       | [] => selectArticleTier (c :: l)) := rfl
  rw [hstep, hf]

/-- C3 (amended): whenever the document's head carries an `og:image` meta tag
with a truthy URL whose resolved form survives `filterUnwantedImages` (it is
not a `data:` URL and contains no blocklisted term), `extractThumbnailFromHtml`
returns that resolved `og:image` URL, in preference to any in-body `<img>`,
regardless of body image size or position.  (When the `og:image` URL is
filtered out — e.g. it contains `logo` — a body image can win instead, which
refutes the unconditional claim.) -/
theorem c3_og_image_preferred_amended (resolve : Str → Str) (d : ThumbDoc) (u : Str)
    (hog : d.ogImage = some u) (hne : u ≠ [])
    (hkeep : keepImage (metaCandOf (resolve u)) = true) :
    extractThumbnailFromHtml resolve d = some (resolve u) := by
  have hj : jsTruthy (some u) = some u := by
    show (if u.isEmpty = true then none else some u) = some u
    rw [if_neg]
    intro hh
    exact hne (List.isEmpty_iff.mp hh)
  have hmeta : metaCandidates resolve d =
      metaCandOf (resolve u) ::
        [d.twitterImage, d.ogImageUrl, d.imageSrcLink].filterMap (fun o =>
          match jsTruthy o with
          | some url => some (metaCandOf (resolve url))
          | none => none) := by
    unfold metaCandidates
    rw [hog, List.filterMap_cons]
    simp only [hj]
  obtain ⟨suf, hsuf⟩ := addGeneralImages_extends resolve d.allImgs
    (metaCandidates resolve d ++ articleCandidates resolve d.articleImgs)
  have himg : ∃ t, extractImagesFromHtml resolve d = metaCandOf (resolve u) :: t := by
    unfold extractImagesFromHtml
    rw [hsuf, hmeta, List.cons_append, List.cons_append]
    exact ⟨_, rfl⟩
  obtain ⟨t, himg⟩ := himg
  unfold extractThumbnailFromHtml filterUnwantedImages
  rw [himg, List.filter_cons, if_pos hkeep]
  exact selectBestThumbnail_meta_head rfl

/-- C3 witness: a surviving `og:image` URL is returned. -/
theorem c3_og_image_witness :
    extractThumbnailFromHtml (fun s => s)
      { ogImage := some (strL "https://example.com/hero.jpg"), twitterImage := none,
        ogImageUrl := none, imageSrcLink := none, articleImgs := [], allImgs := [] } =
      some (strL "https://example.com/hero.jpg") :=
  c3_og_image_preferred_amended (fun s => s)
    { ogImage := some (strL "https://example.com/hero.jpg"), twitterImage := none,
      ogImageUrl := none, imageSrcLink := none, articleImgs := [], allImgs := [] }
    (strL "https://example.com/hero.jpg") rfl (by decide) (by decide)

/-- C3 counterexample: the head contains an `og:image` meta tag, but its URL
contains `logo`, so `filterUnwantedImages` discards it and the selector
returns the in-body image instead of the `og:image` URL — refuting the
unconditional preference claim. -/
theorem c3_filtered_og_image_cex :
    extractThumbnailFromHtml (fun s => s)
      { ogImage := some (strL "https://example.com/logo.png"), twitterImage := none,
        ogImageUrl := none, imageSrcLink := none, articleImgs := [],
        allImgs := [{ srcAttr := some (strL "https://example.com/photo.jpg"),
                      dataSrc := none, width := none, height := none,
                      alt := [], className := [] }] } =
      some (strL "https://example.com/photo.jpg") ∧
    ¬ strL "https://example.com/photo.jpg" = strL "https://example.com/logo.png" := by
  decide

theorem metaCandidates_source (resolve : Str → Str) (d : ThumbDoc) :
    ∀ c ∈ metaCandidates resolve d, c.source = ImgSource.meta := by
  intro c hc
  unfold metaCandidates at hc
  rw [List.mem_filterMap] at hc
  obtain ⟨o, _, ho⟩ := hc
  cases hjt : jsTruthy o with
  | none =>
    rw [hjt] at ho
    exact Option.noConfusion ho
  | some url =>
    rw [hjt] at ho
    have := Option.some.inj ho
    rw [← this]
    rfl

theorem articleCandidates_source (resolve : Str → Str) (groups : List (List ImgElem)) :
    ∀ c ∈ articleCandidates resolve groups, c.source = ImgSource.article := by
  intro c hc
  unfold articleCandidates at hc
  rw [List.mem_flatten] at hc
  obtain ⟨grp, hgrp, hcg⟩ := hc
  rw [List.mem_map] at hgrp
  obtain ⟨g, _, hg⟩ := hgrp
  rw [← hg] at hcg
  rw [List.mem_filterMap] at hcg
  obtain ⟨e, _, he⟩ := hcg
  cases hsrc : effSrc e with
  | none =>
    rw [hsrc] at he
    exact Option.noConfusion he
  | some src =>
    rw [hsrc] at he
    have := Option.some.inj he
    rw [← this]

theorem pairwise_of_no_general {l : List ImageCandidate}
    (h : ∀ b ∈ l, b.source ≠ ImgSource.general) :
    l.Pairwise (fun a b => b.source = ImgSource.general → a.url ≠ b.url) := by
  induction l with
  | nil => exact List.Pairwise.nil
  | cons a t ih =>
    refine List.Pairwise.cons ?_ (ih fun b hb => h b (List.mem_cons_of_mem _ hb))
    intro b hb hbg
    exact absurd hbg (h b (List.mem_cons_of_mem _ hb))

theorem addGeneralImages_pairwise (resolve : Str → Str) :
    ∀ (es : List ImgElem) (acc : List ImageCandidate),
      acc.Pairwise (fun a b => b.source = ImgSource.general → a.url ≠ b.url) →
      (addGeneralImages resolve acc es).Pairwise
        (fun a b => b.source = ImgSource.general → a.url ≠ b.url) := by
  intro es
  induction es with
  | nil =>
    intro acc h
    exact h
  | cons e rest ih =>
    intro acc h
    rw [addGeneralImages_step]
    split
    · exact ih acc h
    · split
      · exact ih acc h
      · next hany =>
        apply ih
        rw [List.pairwise_append]
        refine ⟨h, List.pairwise_singleton _ _, ?_⟩
        intro a ha b hb
        rw [List.mem_singleton] at hb
        subst hb
        intro _ hurl
        rw [Bool.not_eq_true] at hany
        have hfa := List.any_eq_false.mp hany a ha
        apply hfa
        rw [beq_iff_eq]
        exact hurl

/-- C9 (amended): within one `extractImagesFromHtml` call, no general-tier
candidate shares its resolved URL with any earlier candidate (of any tier) —
the general tier checks the collected list before pushing.  The meta and
article tiers themselves push without any duplicate check, so duplicates
among or across those two tiers are possible (the counterexample). -/
theorem c9_general_dedup_amended (resolve : Str → Str) (d : ThumbDoc) :
    (extractImagesFromHtml resolve d).Pairwise
      (fun a b => b.source = ImgSource.general → a.url ≠ b.url) := by
  unfold extractImagesFromHtml
  apply addGeneralImages_pairwise
  apply pairwise_of_no_general
  intro b hb
  rcases List.mem_append.mp hb with h | h
  · rw [metaCandidates_source resolve d b h]
    intro hh
    exact ImgSource.noConfusion hh
  · rw [articleCandidates_source resolve d.articleImgs b h]
    intro hh
    exact ImgSource.noConfusion hh

/-- C9 counterexample: `og:image` and `twitter:image` pointing at the same
URL yield two candidates with equal resolved URLs in one extraction call —
the meta tier pushes without deduplication — refuting that no two candidates
share a URL. -/
theorem c9_duplicate_meta_cex :
    ¬ ((extractImagesFromHtml (fun s => s)
        { ogImage := some (strL "https://example.com/a.png"),
          twitterImage := some (strL "https://example.com/a.png"),
          ogImageUrl := none, imageSrcLink := none,
          articleImgs := [], allImgs := [] }).map ImageCandidate.url).Nodup := by
  decide

end ArticleSummarizer
